import Mathlib

/-!
Verification of the answer-orchestration core of the Chat-with-RAG app:
a shallow embedding of `llm_providers._make_context` and of
`streamlit_app.ask_and_answer`, the sidebar clear actions and the
Markdown export, together with proofs of the specified properties.
Python strings are modelled as Lean `String` (lists of code points),
Python lists as Lean `List`, dict-shaped records as structures, and the
external collaborators (store loading, retrieval, the two LLM calls) as
an explicit record of possibly-failing functions, since they live
outside this repository.
-/

namespace ChatRag

/-- A retrieval hit, the dict with keys id, ref, text and score
produced by the retrieval collaborator.  The float score is modelled as
an integer since no code path verified here ever reads it. -/
structure Hit where
  id : Nat
  ref : String
  text : String
  score : Int
  deriving DecidableEq

/-- A chunk of the loaded store, the dict `\x7bid, ref, text\x7d` of
`doc.chunks`. -/
structure Chunk where
  id : Nat
  ref : String
  text : String
  deriving DecidableEq

/-- Lower-casing a string character by character, the model of Python
`str.lower` on the ASCII text this program compares. -/
def lowerStr (s : String) : String :=
  String.mk (s.data.map Char.toLower)

/-- The canonical trigger phrase tested by `ask_and_answer`
(`streamlit_app.py` line 162), written lower-case exactly as in the
source. -/
def canonicalPhrase : String := "couldn\x27t find an answer in the document"

/-- Whether the second list starts with the first, character by
character. -/
def startsWithL : List Char → List Char → Bool
  | [], _ => true
  | _ :: _, [] => false
  | a :: p, b :: s => a == b && startsWithL p s

/-- Python substring containment `p in s` on code-point lists. -/
def containsSub (p : List Char) : List Char → Bool
  | [] => p.isEmpty
  | c :: t => startsWithL p (c :: t) || containsSub p t

/-- The fallback test of `ask_and_answer`:
`"couldn\x27t find an answer in the document" in ans_doc.lower()`. -/
def containsCanonicalCI (s : String) : Bool :=
  containsSub canonicalPhrase.data (lowerStr s).data

/-- One passage block of `_make_context`: the ref in square brackets, a
newline, the text, a newline. -/
def blockOf (h : Hit) : String :=
  "[" ++ h.ref ++ "]\n" ++ h.text ++ "\n"

/-- The dedup-by-id loop of `_make_context`: `used` is the set of ids
already seen; a hit whose id is in `used` is skipped, otherwise it is
kept and its id recorded. -/
def contextHitsAux : List Hit → List Nat → List Hit
  | [], _ => []
  | h :: t, used =>
      if h.id ∈ used then contextHitsAux t used
      else h :: contextHitsAux t (h.id :: used)

/-- The hits whose blocks `_make_context` emits, in order. -/
def contextHits (hits : List Hit) : List Hit :=
  contextHitsAux hits []

/-- Python slice `s[:n]` on strings: the first `n` code points. -/
def strTake (s : String) (n : Nat) : String :=
  String.mk (s.data.take n)

/-- The joined passage portion before truncation:
`"\n---\n".join(blocks)`. -/
def joinedBlocks (hits : List Hit) : String :=
  String.intercalate "\n---\n" ((contextHits hits).map blockOf)

/-- `llm_providers._make_context(hits, question, max_chars)`: blocks are
deduplicated by id, joined, truncated to `maxChars` characters, and the
question is appended after the fixed marker.  The source default for
`maxChars` is 6000. -/
def make_context (hits : List Hit) (question : String) (maxChars : Nat) : String :=
  "DOCUMENT EXCERPTS:\n" ++ strTake (joinedBlocks hits) maxChars
    ++ "\n\nQUESTION: " ++ question

/-- Lexicographic order on code-point lists, the order Python uses to
compare strings. -/
def leChars : List Char → List Char → Bool
  | [], _ => true
  | _ :: _, [] => false
  | a :: s, b :: t =>
      if a.toNat < b.toNat then true
      else if b.toNat < a.toNat then false
      else leChars s t

/-- Python string comparison `a <= b`. -/
def strLe (a b : String) : Bool :=
  leChars a.data b.data

/-- Insertion into a sorted list of strings. -/
def insertSorted (x : String) : List String → List String
  | [] => [x]
  | y :: t => if strLe x y then x :: y :: t else y :: insertSorted x t

/-- Insertion sort on strings, the model of Python `sorted` on a list of
strings. -/
def sortStr (l : List String) : List String :=
  l.foldr insertSorted []

/-- Python `sorted(set(l))` for a list of strings: duplicates removed,
then sorted. -/
def sortedDedup (l : List String) : List String :=
  sortStr l.dedup

/-- The `doc_refs` computed at indexing time
(`streamlit_app.py` lines 111-113): `sorted(\x7bc["ref"] for c in doc.chunks\x7d)`. -/
def docRefsOf (chunks : List Chunk) : List String :=
  sortedDedup (chunks.map Chunk.ref)

/-- One entry of `st.session_state.messages`.  Keys a given append does
not set are modelled by their neutral value: `citations = []` (the code
reads them with `m.get("citations") or []`), `mode = none`,
`retrieved = []`. -/
structure Message where
  role : String
  content : String
  citations : List String
  mode : Option String
  retrieved : List Hit
  deriving DecidableEq

/-- The per-user session state held in `st.session_state`. -/
structure ChatSession where
  doc_id : Option String
  doc_name : Option String
  doc_refs : List String
  messages : List Message
  pending_question : Option String
  deriving DecidableEq

/-- `st.session_state.messages.append(m)`. -/
def appendMsg (s : ChatSession) (m : Message) : ChatSession :=
  { s with messages := s.messages ++ [m] }

/-- The user echo `\x7b"role": "user", "content": question\x7d`. -/
def mkUserMsg (q : String) : Message :=
  ⟨"user", q, [], none, []⟩

/-- The fixed reply given when no document is indexed. -/
def noDocReply : String := "Please upload and index a document first."

/-- The assistant message appended by the `except` clause of
`ask_and_answer`: `f"⚠️ Error while answering: \x7be\x7d"`. -/
def mkErrMsg (e : String) : Message :=
  ⟨"assistant", "⚠️ Error while answering: " ++ e, [], none, []⟩

/-- Python truthiness of `st.session_state.doc_id`
(`if not st.session_state.doc_id`): an unset id or an empty string is
falsy. -/
def docTruthy : Option String → Bool
  | none => false
  | some d => !d.isEmpty

/-- One backend call observable from outside `ask_and_answer`, recorded
with its arguments. -/
inductive CallEv where
  | retrieveCall (question : String) (k : Nat)
  | groundedCall (hits : List Hit) (question : String)
  | topicalCall (question : String)
  deriving DecidableEq

/-- The external collaborators of one turn: store loading plus
retrieval (`load_store` and `retrieve`, combined since their results
are only consumed together), the grounded generation
(`generate_doc_answer`) and the topical generation
(`generate_topical_answer`).  Each may raise, modelled by
`Except String`. -/
structure Collab where
  retrieveResult : String → Except String (List Hit)
  groundedResult : List Hit → String → Except String String
  topicalResult : String → Except String String

/-- `streamlit_app.ask_and_answer(question)` as a state transformer on
the session, also returning the trace of collaborator calls made.
Mirrors the source: echo the user message; guard on a falsy `doc_id`;
retrieve with `k = 6`; try the grounded answer; fall back to the
topical answer exactly when the lower-cased grounded answer contains
the canonical phrase; on any raise, append the error message instead. -/
def ask_and_answer (c : Collab) (s : ChatSession) (question : String) :
    ChatSession × List CallEv :=
  let s1 := appendMsg s (mkUserMsg question)
  if docTruthy s1.doc_id = false then
    (appendMsg s1 ⟨"assistant", noDocReply, [], none, []⟩, [])
  else
    match c.retrieveResult question with
    | Except.error e => (appendMsg s1 (mkErrMsg e), [CallEv.retrieveCall question 6])
    | Except.ok hits =>
      match c.groundedResult hits question with
      | Except.error e =>
          (appendMsg s1 (mkErrMsg e),
           [CallEv.retrieveCall question 6, CallEv.groundedCall hits question])
      | Except.ok ansDoc =>
        if containsCanonicalCI ansDoc then
          match c.topicalResult question with
          | Except.error e =>
              (appendMsg s1 (mkErrMsg e),
               [CallEv.retrieveCall question 6, CallEv.groundedCall hits question,
                CallEv.topicalCall question])
          | Except.ok ans =>
              (appendMsg s1 ⟨"assistant", ans, [], some "off-doc", hits⟩,
               [CallEv.retrieveCall question 6, CallEv.groundedCall hits question,
                CallEv.topicalCall question])
        else
          (appendMsg s1 ⟨"assistant", ansDoc, hits.map Hit.ref, some "doc", hits⟩,
           [CallEv.retrieveCall question 6, CallEv.groundedCall hits question])

/-- The sidebar Clear Chat button: `st.session_state.messages = []`. -/
def clearChat (s : ChatSession) : ChatSession :=
  { s with messages := [] }

/-- The sidebar Clear Doc button: unsets `doc_id`, `doc_name` and
`doc_refs`. -/
def clearDoc (s : ChatSession) : ChatSession :=
  { s with doc_id := none, doc_name := none, doc_refs := [] }

/-- The role label used by the Markdown export:
`"User" if m["role"] == "user" else "Assistant"`. -/
def roleLabel (m : Message) : String :=
  if m.role == "user" then "User" else "Assistant"

/-- The body of the Markdown export loop for one message `m`: append
its role line; when its citations are non-empty, append the
`_Citations:_` line with sorted deduplicated refs; then append a blank
line. -/
def exportStep (md : List String) (m : Message) : List String :=
  let md1 := md ++ ["**" ++ roleLabel m ++ ":** " ++ m.content]
  let md2 :=
    if m.citations.isEmpty then md1
    else md1 ++ ["_Citations:_ " ++ String.intercalate ", " (sortedDedup m.citations)]
  md2 ++ [""]

/-- The Markdown export (`streamlit_app.py` lines 235-244): the export
loop run over all messages, joined with newlines.  It reads `messages`
and builds a fresh string, mutating nothing. -/
def exportMarkdown (ms : List Message) : String :=
  String.intercalate "\n" (ms.foldl exportStep [])

/-- The block of one message as the spec describes it: the role line,
the optional citations line, one blank line. -/
def messageBlock (m : Message) : List String :=
  ["**" ++ roleLabel m ++ ":** " ++ m.content]
    ++ (if m.citations.isEmpty then []
        else ["_Citations:_ " ++ String.intercalate ", " (sortedDedup m.citations)])
    ++ [""]

/-- Order-preserving per-message serialization, in the words of the
spec: one block per message, in message order. -/
def exportMarkdownSpec (ms : List Message) : String :=
  String.intercalate "\n" ((ms.map messageBlock).flatten)

/-- A concrete store with a duplicated ref across distinct chunk ids. -/
def chunksA : List Chunk :=
  [⟨1, "page_3", "alpha"⟩, ⟨2, "page_1", "beta"⟩, ⟨3, "page_3", "gamma"⟩]

/-- Concrete hits over `chunksA`: distinct ids, `page_3` appearing
twice and the refs not in sorted order. -/
def hitsDup : List Hit :=
  [⟨1, "page_3", "alpha", 5⟩, ⟨2, "page_1", "beta", 4⟩, ⟨3, "page_3", "gamma", 3⟩]

/-- A session with a document indexed from `chunksA`. -/
def sessDoc : ChatSession :=
  ⟨some "doc123", some "report.pdf", docRefsOf chunksA, [], none⟩

/-- A fresh session with no document indexed. -/
def sessEmpty : ChatSession := ⟨none, none, [], [], none⟩

/-- A grounded response carrying the canonical phrase in mixed case. -/
def offAnswer : String := "I Couldn\x27t Find An Answer In The Document."

/-- A grounded response without the canonical phrase. -/
def groundedAnswer : String := "Alpha facts. [ref: page_3]"

/-- Collaborators whose grounded answer triggers the fallback. -/
def collabOff : Collab :=
  ⟨fun _ => Except.ok hitsDup, fun _ _ => Except.ok offAnswer,
   fun _ => Except.ok "Off-doc (related): general answer."⟩

/-- Collaborators whose grounded answer succeeds. -/
def collabGrounded : Collab :=
  ⟨fun _ => Except.ok hitsDup, fun _ _ => Except.ok groundedAnswer,
   fun _ => Except.ok "unused"⟩

/-- Collaborators that raise on every call. -/
def collabFail : Collab :=
  ⟨fun _ => Except.error "boom", fun _ _ => Except.error "boom",
   fun _ => Except.error "boom"⟩

/-- A small concrete message log. -/
def msgsA : List Message :=
  [mkUserMsg "hi", ⟨"assistant", "yo", ["b", "a"], some "doc", []⟩]

/-- Membership in an insertion step. -/
theorem mem_insertSorted (a x : String) (l : List String) :
    a ∈ insertSorted x l ↔ a = x ∨ a ∈ l := by
  induction l with
  | nil => simp [insertSorted]
  | cons y t ih =>
      by_cases h : strLe x y = true
      · simp only [insertSorted, h, if_true, List.mem_cons]
      · simp only [insertSorted, h, if_false, Bool.false_eq_true, List.mem_cons, ih]
        tauto

/-- Sorting does not change membership. -/
theorem mem_sortStr (a : String) (l : List String) :
    a ∈ sortStr l ↔ a ∈ l := by
  induction l with
  | nil => simp [sortStr]
  | cons x t ih =>
      simp only [sortStr, List.foldr_cons] at ih ⊢
      rw [mem_insertSorted]
      simp [ih]

/-- `sortedDedup` keeps exactly the members of its input. -/
theorem mem_sortedDedup (a : String) (l : List String) :
    a ∈ sortedDedup l ↔ a ∈ l := by
  simp [sortedDedup, mem_sortStr, List.mem_dedup]

/-- The dedup loop only drops hits: its output is a sublist of its
input, so relative order is preserved. -/
theorem contextHitsAux_sublist (hits : List Hit) :
    ∀ used, List.Sublist (contextHitsAux hits used) hits := by
  induction hits with
  | nil => intro used; simp [contextHitsAux]
  | cons h t ih =>
      intro used
      by_cases hm : h.id ∈ used
      · simp only [contextHitsAux, if_pos hm]
        exact List.Sublist.cons h (ih used)
      · simp only [contextHitsAux, if_neg hm]
        exact List.Sublist.cons₂ h (ih (h.id :: used))

/-- Every hit kept by the dedup loop has an id outside the already-seen
set. -/
theorem contextHitsAux_id_notin (hits : List Hit) :
    ∀ used g, g ∈ contextHitsAux hits used → g.id ∉ used := by
  induction hits with
  | nil => intro used g hg; simp [contextHitsAux] at hg
  | cons h t ih =>
      intro used g hg
      by_cases hm : h.id ∈ used
      · simp only [contextHitsAux, if_pos hm] at hg
        exact ih used g hg
      · simp only [contextHitsAux, if_neg hm] at hg
        rcases List.mem_cons.mp hg with rfl | hg2
        · exact hm
        · have hrec := ih (h.id :: used) g hg2
          intro hc
          exact hrec (List.mem_cons_of_mem _ hc)

/-- The ids of the kept hits are pairwise distinct. -/
theorem contextHitsAux_nodup (hits : List Hit) :
    ∀ used, ((contextHitsAux hits used).map Hit.id).Nodup := by
  induction hits with
  | nil => intro used; simp [contextHitsAux]
  | cons h t ih =>
      intro used
      by_cases hm : h.id ∈ used
      · simp only [contextHitsAux, if_pos hm]
        exact ih used
      · simp only [contextHitsAux, if_neg hm, List.map_cons, List.nodup_cons]
        refine ⟨?_, ih (h.id :: used)⟩
        intro hmem
        rcases List.mem_map.mp hmem with ⟨g, hg, hgid⟩
        have hnotin := contextHitsAux_id_notin t (h.id :: used) g hg
        exact hnotin (by rw [hgid]; exact List.mem_cons_self _ _)

/-- Every id occurring in the input and not already seen occurs among
the kept ids. -/
theorem contextHitsAux_covers (hits : List Hit) :
    ∀ used h, h ∈ hits → h.id ∉ used →
      h.id ∈ (contextHitsAux hits used).map Hit.id := by
  induction hits with
  | nil => intro used h hh; simp at hh
  | cons g t ih =>
      intro used h hh hnot
      rcases List.mem_cons.mp hh with rfl | ht
      · simp only [contextHitsAux, if_neg hnot, List.map_cons]
        exact List.mem_cons_self _ _
      · by_cases hm : g.id ∈ used
        · simp only [contextHitsAux, if_pos hm]
          exact ih used h ht hnot
        · simp only [contextHitsAux, if_neg hm, List.map_cons]
          by_cases he : h.id = g.id
          · rw [he]
            exact List.mem_cons_self _ _
          · refine List.mem_cons_of_mem _ (ih (g.id :: used) h ht ?_)
            intro hc
            rcases List.mem_cons.mp hc with h1 | h2
            · exact he h1
            · exact hnot h2

/-- Each kept hit is exactly the first hit of the input carrying its
id: the first occurrence wins. -/
theorem contextHitsAux_firstWins (hits : List Hit) :
    ∀ used g, g ∈ contextHitsAux hits used →
      List.find? (fun h => h.id == g.id) hits = some g := by
  induction hits with
  | nil => intro used g hg; simp [contextHitsAux] at hg
  | cons a t ih =>
      intro used g hg
      by_cases hm : a.id ∈ used
      · simp only [contextHitsAux, if_pos hm] at hg
        have hgid := contextHitsAux_id_notin t used g hg
        have hne : ¬ ((fun h => h.id == g.id) a = true) := by
          simp only [beq_iff_eq]
          intro hc
          exact hgid (hc ▸ hm)
        rw [List.find?_cons_of_neg t hne]
        exact ih used g hg
      · simp only [contextHitsAux, if_neg hm] at hg
        rcases List.mem_cons.mp hg with rfl | hg2
        · rw [List.find?_cons_of_pos t (by simp)]
        · have hgid := contextHitsAux_id_notin t (a.id :: used) g hg2
          have hne : ¬ ((fun h => h.id == g.id) a = true) := by
            simp only [beq_iff_eq]
            intro hc
            exact hgid (hc ▸ List.mem_cons_self _ _)
          rw [List.find?_cons_of_neg t hne]
          exact ih (a.id :: used) g hg2

/-- The export loop is the per-message block serialization, for any
accumulator. -/
theorem foldl_exportStep (ms : List Message) :
    ∀ acc : List String,
      ms.foldl exportStep acc = acc ++ (ms.map messageBlock).flatten := by
  induction ms with
  | nil => intro acc; simp
  | cons m t ih =>
      intro acc
      simp only [List.foldl_cons, List.map_cons, List.flatten_cons]
      rw [ih]
      by_cases hc : m.citations.isEmpty
      · simp [exportStep, messageBlock, hc, List.append_assoc]
      · simp [exportStep, messageBlock, hc, List.append_assoc]

/-- Every turn appends exactly the user echo and one assistant
message. -/
theorem ask_shape (c : Collab) (s : ChatSession) (q : String) :
    ∃ a : Message, a.role = "assistant" ∧
      (ask_and_answer c s q).1.messages = s.messages ++ [mkUserMsg q, a] := by
  cases hd : docTruthy s.doc_id with
  | false =>
      exact ⟨⟨"assistant", noDocReply, [], none, []⟩, rfl,
        by simp [ask_and_answer, appendMsg, hd]⟩
  | true =>
      cases hres : c.retrieveResult q with
      | error e =>
          exact ⟨mkErrMsg e, rfl, by simp [ask_and_answer, appendMsg, hd, hres]⟩
      | ok hits =>
          cases hgr : c.groundedResult hits q with
          | error e =>
              exact ⟨mkErrMsg e, rfl,
                by simp [ask_and_answer, appendMsg, hd, hres, hgr]⟩
          | ok ansDoc =>
              cases htr : containsCanonicalCI ansDoc with
              | false =>
                  exact ⟨⟨"assistant", ansDoc, hits.map Hit.ref, some "doc", hits⟩, rfl,
                    by simp [ask_and_answer, appendMsg, hd, hres, hgr, htr]⟩
              | true =>
                  cases htop : c.topicalResult q with
                  | error e =>
                      exact ⟨mkErrMsg e, rfl,
                        by simp [ask_and_answer, appendMsg, hd, hres, hgr, htr, htop]⟩
                  | ok ans =>
                      exact ⟨⟨"assistant", ans, [], some "off-doc", hits⟩, rfl,
                        by simp [ask_and_answer, appendMsg, hd, hres, hgr, htr, htop]⟩

/-- No turn touches the document fields or the pending question. -/
theorem ask_frame (c : Collab) (s : ChatSession) (q : String) :
    (ask_and_answer c s q).1.doc_id = s.doc_id ∧
    (ask_and_answer c s q).1.doc_name = s.doc_name ∧
    (ask_and_answer c s q).1.doc_refs = s.doc_refs ∧
    (ask_and_answer c s q).1.pending_question = s.pending_question := by
  cases hd : docTruthy s.doc_id with
  | false => simp [ask_and_answer, appendMsg, hd]
  | true =>
      cases hres : c.retrieveResult q with
      | error e => simp [ask_and_answer, appendMsg, hd, hres]
      | ok hits =>
          cases hgr : c.groundedResult hits q with
          | error e => simp [ask_and_answer, appendMsg, hd, hres, hgr]
          | ok ansDoc =>
              cases htr : containsCanonicalCI ansDoc with
              | false => simp [ask_and_answer, appendMsg, hd, hres, hgr, htr]
              | true =>
                  cases htop : c.topicalResult q with
                  | error e => simp [ask_and_answer, appendMsg, hd, hres, hgr, htr, htop]
                  | ok ans => simp [ask_and_answer, appendMsg, hd, hres, hgr, htr, htop]

/-- C1: when the grounded response contains the canonical phrase under
the case-insensitive test, the orchestrator calls the topical path with
the raw question and appends an assistant message whose content is the
topical answer, with mode off-doc and empty citations; and when the
phrase is absent the topical path is never called, so the phrase test
is the only trigger. -/
theorem C1_offdoc_fallback (c : Collab) (s : ChatSession) (q : String)
    (hits : List Hit) (ansDoc ansTop : String)
    (hdoc : docTruthy s.doc_id = true)
    (hr : c.retrieveResult q = Except.ok hits)
    (hg : c.groundedResult hits q = Except.ok ansDoc)
    (ht : c.topicalResult q = Except.ok ansTop) :
    (containsCanonicalCI ansDoc = true →
      (ask_and_answer c s q).1.messages
        = s.messages ++ [mkUserMsg q, ⟨"assistant", ansTop, [], some "off-doc", hits⟩] ∧
      (ask_and_answer c s q).2
        = [CallEv.retrieveCall q 6, CallEv.groundedCall hits q, CallEv.topicalCall q]) ∧
    (containsCanonicalCI ansDoc = false →
      (ask_and_answer c s q).2
        = [CallEv.retrieveCall q 6, CallEv.groundedCall hits q]) := by
  refine ⟨fun htr => ⟨?_, ?_⟩, fun htr => ?_⟩
  · simp [ask_and_answer, appendMsg, hdoc, hr, hg, ht, htr]
  · simp [ask_and_answer, appendMsg, hdoc, hr, hg, ht, htr]
  · simp [ask_and_answer, appendMsg, hdoc, hr, hg, htr]

/-- C1 witness: a concrete turn whose grounded answer carries the
phrase in mixed case ends with the topical answer, mode off-doc and no
citations. -/
theorem C1_offdoc_fallback_witness :
    docTruthy sessDoc.doc_id = true ∧ containsCanonicalCI offAnswer = true ∧
    (ask_and_answer collabOff sessDoc "q").1.messages
      = sessDoc.messages
        ++ [mkUserMsg "q",
            ⟨"assistant", "Off-doc (related): general answer.", [], some "off-doc", hitsDup⟩] :=
  ⟨by decide, by decide,
    ((C1_offdoc_fallback collabOff sessDoc "q" hitsDup offAnswer
        "Off-doc (related): general answer." (by decide) rfl rfl rfl).1 (by decide)).1⟩

/-- C2 counterexample: with hits whose refs are out of order and
duplicated, the stored assistant citations are the raw ref list, not
the sorted deduplicated set the claim states. -/
theorem C2_counterexample :
    ((ask_and_answer collabGrounded sessDoc "q").1.messages.getLast?).map Message.citations
      ≠ some (sortedDedup (hitsDup.map Hit.ref)) := by
  decide

/-- C2 (amended): for a grounded response without the phrase, the
stored assistant message has the response verbatim as content and the
ref list of all supplied hits, in input order, as citations; that list
has the same members as the sorted deduplicated ref set, which is what
display and export render. -/
theorem C2_grounded_citations (c : Collab) (s : ChatSession) (q : String)
    (hits : List Hit) (ansDoc : String)
    (hdoc : docTruthy s.doc_id = true)
    (hr : c.retrieveResult q = Except.ok hits)
    (hg : c.groundedResult hits q = Except.ok ansDoc)
    (hph : containsCanonicalCI ansDoc = false) :
    (ask_and_answer c s q).1.messages
      = s.messages
        ++ [mkUserMsg q, ⟨"assistant", ansDoc, hits.map Hit.ref, some "doc", hits⟩] ∧
    (∀ r, r ∈ hits.map Hit.ref ↔ r ∈ sortedDedup (hits.map Hit.ref)) := by
  refine ⟨?_, fun r => (mem_sortedDedup r (hits.map Hit.ref)).symm⟩
  simp [ask_and_answer, appendMsg, hdoc, hr, hg, hph]

/-- C2 witness: the concrete grounded turn stores the response verbatim
and the raw ref list of all three hits. -/
theorem C2_grounded_citations_witness :
    containsCanonicalCI groundedAnswer = false ∧
    (ask_and_answer collabGrounded sessDoc "q").1.messages
      = sessDoc.messages
        ++ [mkUserMsg "q",
            ⟨"assistant", groundedAnswer, hitsDup.map Hit.ref, some "doc", hitsDup⟩] :=
  ⟨by decide,
    (C2_grounded_citations collabGrounded sessDoc "q" hitsDup groundedAnswer
      (by decide) rfl rfl (by decide)).1⟩

/-- C3: the blocks of the context assembler keep each distinct id
exactly once: they form a sublist of the input (dropping never
reorders), their ids are pairwise distinct, every input id is
represented, each kept hit is the first input occurrence of its id, and
the joined passage text is exactly the blocks of these hits. -/
theorem C3_context_dedup (hits : List Hit) :
    List.Sublist (contextHits hits) hits ∧
    ((contextHits hits).map Hit.id).Nodup ∧
    (∀ h ∈ hits, h.id ∈ (contextHits hits).map Hit.id) ∧
    (∀ g ∈ contextHits hits, List.find? (fun h => h.id == g.id) hits = some g) ∧
    joinedBlocks hits = String.intercalate "\n---\n" ((contextHits hits).map blockOf) := by
  refine ⟨contextHitsAux_sublist hits [], contextHitsAux_nodup hits [], ?_, ?_, rfl⟩
  · intro h hh
    exact contextHitsAux_covers hits [] h hh (by simp)
  · intro g hg
    exact contextHitsAux_firstWins hits [] g hg

/-- C3 witness: on the concrete duplicated hits, the kept blocks are
the first occurrence of each id in order. -/
theorem C3_context_dedup_witness :
    List.Sublist (contextHits hitsDup) hitsDup ∧
    ((contextHits hitsDup).map Hit.id).Nodup :=
  ⟨(C3_context_dedup hitsDup).1, (C3_context_dedup hitsDup).2.1⟩

/-- C4: the truncated passage portion of the assembled context is at
most `maxChars` characters (truncation applied to the joined blocks),
the output decomposes as the passage portion followed by the question
marker and the untruncated question, and the output is never empty. -/
theorem C4_context_bound (hits : List Hit) (question : String) (maxChars : Nat) :
    (strTake (joinedBlocks hits) maxChars).length ≤ maxChars ∧
    make_context hits question maxChars
      = ("DOCUMENT EXCERPTS:\n" ++ strTake (joinedBlocks hits) maxChars)
        ++ ("\n\nQUESTION: " ++ question) ∧
    make_context hits question maxChars ≠ "" := by
  refine ⟨?_, ?_, ?_⟩
  · simp only [strTake, String.length]
    exact List.length_take_le maxChars (joinedBlocks hits).data
  · simp [make_context, String.append_assoc]
  · intro hc
    have hdata := congrArg String.data hc
    simp only [make_context, String.data_append] at hdata
    rcases List.append_eq_nil.mp hdata with ⟨hc1, _⟩
    rcases List.append_eq_nil.mp hc1 with ⟨hc2, _⟩
    rcases List.append_eq_nil.mp hc2 with ⟨hc3, _⟩
    exact (by decide : "DOCUMENT EXCERPTS:\n".data ≠ []) hc3

/-- C4 witness: on the concrete hits with the default bound of 6000. -/
theorem C4_context_bound_witness :
    (strTake (joinedBlocks hitsDup) 6000).length ≤ 6000 ∧
    make_context hitsDup "q" 6000 ≠ "" :=
  ⟨(C4_context_bound hitsDup "q" 6000).1, (C4_context_bound hitsDup "q" 6000).2.2⟩

/-- C5: when `doc_refs` was computed from the chunks of the loaded
document and retrieval only returns hits whose refs come from those
chunks, every message a turn appends with grounded mode has citations
inside `doc_refs`. -/
theorem C5_citations_subset (c : Collab) (s : ChatSession) (q : String)
    (chunks : List Chunk)
    (hrefs : s.doc_refs = docRefsOf chunks)
    (hhits : ∀ hits, c.retrieveResult q = Except.ok hits →
      ∀ h ∈ hits, ∃ ch ∈ chunks, h.ref = ch.ref) :
    ∀ m ∈ (ask_and_answer c s q).1.messages.drop s.messages.length,
      m.mode = some "doc" → ∀ r ∈ m.citations, r ∈ s.doc_refs := by
  intro m hm hmode
  cases hd : docTruthy s.doc_id with
  | false =>
      simp [ask_and_answer, appendMsg, hd, List.drop_left] at hm
      rcases hm with rfl | rfl
      · simp [mkUserMsg] at hmode
      · simp at hmode
  | true =>
      cases hres : c.retrieveResult q with
      | error e =>
          simp [ask_and_answer, appendMsg, hd, hres, List.drop_left] at hm
          rcases hm with rfl | rfl
          · simp [mkUserMsg] at hmode
          · simp [mkErrMsg] at hmode
      | ok hits =>
          cases hgr : c.groundedResult hits q with
          | error e =>
              simp [ask_and_answer, appendMsg, hd, hres, hgr, List.drop_left] at hm
              rcases hm with rfl | rfl
              · simp [mkUserMsg] at hmode
              · simp [mkErrMsg] at hmode
          | ok ansDoc =>
              cases htr : containsCanonicalCI ansDoc with
              | true =>
                  cases htop : c.topicalResult q with
                  | error e =>
                      simp [ask_and_answer, appendMsg, hd, hres, hgr, htr, htop,
                        List.drop_left] at hm
                      rcases hm with rfl | rfl
                      · simp [mkUserMsg] at hmode
                      · simp [mkErrMsg] at hmode
                  | ok ans =>
                      simp [ask_and_answer, appendMsg, hd, hres, hgr, htr, htop,
                        List.drop_left] at hm
                      rcases hm with rfl | rfl
                      · simp [mkUserMsg] at hmode
                      · simp at hmode
              | false =>
                  simp [ask_and_answer, appendMsg, hd, hres, hgr, htr,
                    List.drop_left] at hm
                  rcases hm with rfl | rfl
                  · simp [mkUserMsg] at hmode
                  · intro r hr0
                    rcases List.mem_map.mp hr0 with ⟨h, hh, rfl⟩
                    rcases hhits hits hres h hh with ⟨ch, hch, heq⟩
                    rw [hrefs]
                    rw [docRefsOf, mem_sortedDedup, heq]
                    exact List.mem_map.mpr ⟨ch, hch, rfl⟩

/-- C5 witness: the concrete grounded turn over `chunksA`. -/
theorem C5_citations_subset_witness :
    sessDoc.doc_refs = docRefsOf chunksA ∧
    (∀ m ∈ (ask_and_answer collabGrounded sessDoc "q").1.messages.drop
        sessDoc.messages.length,
      m.mode = some "doc" → ∀ r ∈ m.citations, r ∈ sessDoc.doc_refs) := by
  refine ⟨rfl, C5_citations_subset collabGrounded sessDoc "q" chunksA rfl ?_⟩
  intro hits hh
  have hh2 : Except.ok (ε := String) hitsDup = Except.ok hits := hh
  injection hh2 with h1
  subst h1
  decide

/-- C6: when the document is set and retrieval, grounded generation or
triggered topical generation raises, the turn appends the user echo
and one assistant message whose content is the error prefix followed by
the raised text, leaving earlier messages and all document fields
unchanged. -/
theorem C6_error_reply (c : Collab) (s : ChatSession) (q e : String)
    (hdoc : docTruthy s.doc_id = true)
    (herr : c.retrieveResult q = Except.error e ∨
      (∃ hits, c.retrieveResult q = Except.ok hits ∧
        c.groundedResult hits q = Except.error e) ∨
      (∃ hits ansDoc, c.retrieveResult q = Except.ok hits ∧
        c.groundedResult hits q = Except.ok ansDoc ∧
        containsCanonicalCI ansDoc = true ∧
        c.topicalResult q = Except.error e)) :
    (ask_and_answer c s q).1.messages = s.messages ++ [mkUserMsg q, mkErrMsg e] ∧
    (mkErrMsg e).content = "⚠️ Error while answering: " ++ e ∧
    (mkErrMsg e).role = "assistant" ∧
    (ask_and_answer c s q).1.doc_id = s.doc_id ∧
    (ask_and_answer c s q).1.doc_name = s.doc_name ∧
    (ask_and_answer c s q).1.doc_refs = s.doc_refs ∧
    (ask_and_answer c s q).1.pending_question = s.pending_question := by
  have hframe := ask_frame c s q
  refine ⟨?_, rfl, rfl, hframe.1, hframe.2.1, hframe.2.2.1, hframe.2.2.2⟩
  rcases herr with h1 | ⟨hits, h1, h2⟩ | ⟨hits, ansDoc, h1, h2, h3, h4⟩
  · simp [ask_and_answer, appendMsg, hdoc, h1]
  · simp [ask_and_answer, appendMsg, hdoc, h1, h2]
  · simp [ask_and_answer, appendMsg, hdoc, h1, h2, h3, h4]

/-- C6 witness: a turn whose retrieval raises appends the error
reply. -/
theorem C6_error_reply_witness :
    docTruthy sessDoc.doc_id = true ∧
    (ask_and_answer collabFail sessDoc "q").1.messages
      = sessDoc.messages ++ [mkUserMsg "q", mkErrMsg "boom"] ∧
    (ask_and_answer collabFail sessDoc "q").1.doc_refs = sessDoc.doc_refs :=
  ⟨by decide,
    (C6_error_reply collabFail sessDoc "q" "boom" (by decide) (Or.inl rfl)).1,
    (C6_error_reply collabFail sessDoc "q" "boom" (by decide) (Or.inl rfl)).2.2.2.2.2.1⟩

/-- C7: with no document indexed, the turn appends the user echo and
the fixed reply, and makes no collaborator call at all. -/
theorem C7_no_document (c : Collab) (s : ChatSession) (q : String)
    (h : s.doc_id = none) :
    (ask_and_answer c s q).1.messages
      = s.messages ++ [mkUserMsg q, ⟨"assistant", noDocReply, [], none, []⟩] ∧
    noDocReply = "Please upload and index a document first." ∧
    (ask_and_answer c s q).2 = [] := by
  refine ⟨?_, rfl, ?_⟩
  · simp [ask_and_answer, appendMsg, docTruthy, h]
  · simp [ask_and_answer, appendMsg, docTruthy, h]

/-- C7 witness: a fresh session answers any question with the fixed
reply and an empty call trace. -/
theorem C7_no_document_witness :
    sessEmpty.doc_id = none ∧
    (ask_and_answer collabFail sessEmpty "anything").1.messages
      = sessEmpty.messages
        ++ [mkUserMsg "anything", ⟨"assistant", noDocReply, [], none, []⟩] ∧
    (ask_and_answer collabFail sessEmpty "anything").2 = [] :=
  ⟨rfl, (C7_no_document collabFail sessEmpty "anything" rfl).1,
    (C7_no_document collabFail sessEmpty "anything" rfl).2.2⟩

/-- C8: Clear Doc unsets only the three document fields and Clear Chat
empties only the message log; each leaves every other field as it
was. -/
theorem C8_clear_frame (s : ChatSession) :
    (clearDoc s).doc_id = none ∧ (clearDoc s).doc_name = none ∧
    (clearDoc s).doc_refs = [] ∧ (clearDoc s).messages = s.messages ∧
    (clearDoc s).pending_question = s.pending_question ∧
    (clearChat s).messages = [] ∧ (clearChat s).doc_id = s.doc_id ∧
    (clearChat s).doc_name = s.doc_name ∧ (clearChat s).doc_refs = s.doc_refs ∧
    (clearChat s).pending_question = s.pending_question :=
  ⟨rfl, rfl, rfl, rfl, rfl, rfl, rfl, rfl, rfl, rfl⟩

/-- C8 witness: the clear operations on the concrete session. -/
theorem C8_clear_frame_witness :
    (clearDoc sessDoc).messages = sessDoc.messages ∧
    (clearChat sessDoc).doc_refs = sessDoc.doc_refs :=
  ⟨(C8_clear_frame sessDoc).2.2.2.1, (C8_clear_frame sessDoc).2.2.2.2.2.2.2.2.1⟩

/-- C9: the Markdown export is exactly the order-preserving
per-message block serialization: the role line, the optional citations
line with the comma-joined sorted deduplicated refs, and a blank line
per message, with the session read but never written (the embedding is
a pure function of the message list). -/
theorem C9_export_markdown (ms : List Message) :
    exportMarkdown ms = exportMarkdownSpec ms := by
  rw [exportMarkdown, exportMarkdownSpec, foldl_exportStep ms []]
  simp

/-- C9 witness: the export of a concrete two-message log. -/
theorem C9_export_markdown_witness :
    exportMarkdown msgsA = exportMarkdownSpec msgsA :=
  C9_export_markdown msgsA

/-- C10: every turn, in all three paths, appends exactly the user echo
carrying the question followed by one assistant message, so the log
grows by two and ends with an assistant message. -/
theorem C10_turn_appends_two (c : Collab) (s : ChatSession) (q : String) :
    ∃ a : Message,
      (ask_and_answer c s q).1.messages = s.messages ++ [mkUserMsg q, a] ∧
      a.role = "assistant" ∧ (mkUserMsg q).role = "user" ∧
      (mkUserMsg q).content = q ∧
      (ask_and_answer c s q).1.messages.length = s.messages.length + 2 ∧
      (ask_and_answer c s q).1.messages.getLast? = some a := by
  obtain ⟨a, ha, hmsg⟩ := ask_shape c s q
  refine ⟨a, hmsg, ha, rfl, rfl, ?_, ?_⟩
  · rw [hmsg]
    simp
  · rw [hmsg, show s.messages ++ [mkUserMsg q, a]
        = (s.messages ++ [mkUserMsg q]) ++ [a] by simp]
    exact List.getLast?_concat _

/-- C10 witness: the concrete fallback turn grows the log by exactly
two messages and ends with an assistant message. -/
theorem C10_turn_appends_two_witness :
    ∃ a : Message,
      (ask_and_answer collabOff sessDoc "q").1.messages
        = sessDoc.messages ++ [mkUserMsg "q", a] ∧
      a.role = "assistant" ∧ (mkUserMsg "q").role = "user" ∧
      (mkUserMsg "q").content = "q" ∧
      (ask_and_answer collabOff sessDoc "q").1.messages.length
        = sessDoc.messages.length + 2 ∧
      (ask_and_answer collabOff sessDoc "q").1.messages.getLast? = some a :=
  C10_turn_appends_two collabOff sessDoc "q"

end ChatRag
